import Mathlib

/-!
Shallow embedding of the post-generation verification and orchestration
subsystem of the Vinted background-replacement pipeline:
`src/agents/agent3-qa.ts` (the SSIM similarity scorer and the QA validator
`validateEdit`) and `src/pipeline.ts` (the pipeline controller
`processImage` and the batch driver `processBatch`).

Modelling conventions:
* JavaScript numbers flowing through the QA arithmetic are embedded as
  exact rationals (`ℚ`).  The one IEEE-754 behaviour the source relies on
  is that dividing zero by a zero pixel count produces NaN, which then
  propagates through every arithmetic operation and makes every `>=`
  comparison false.  That is embedded as `Option ℚ`, with `none` playing
  the role of NaN: the only division by zero the source can perform is
  `sumX / n` with `n = 0` (and then `sumX = 0` as well, so the JS value is
  NaN, not an infinity), which happens exactly when the subject sample is
  empty; every later operation on that NaN again yields NaN.
* Remote collaborators (mask generator, inpainter), the SHA-256 digests,
  the sharp decode/resize step, wall-clock readings and file writes are
  environment inputs: they are passed to the embedded functions explicitly
  (a sharp failure or a file-write failure is an `Except.error` carrying
  the thrown message, mirroring the `try`/`catch` structure of the source).
* JS number-to-string interpolation inside audit-trail strings is
  abstracted by exact rational printing (`ratStr`); no claim depends on the
  precise digits.
-/

namespace Vinted

/-- Stabilization constant `c1 = (k1 * L) ** 2` with `k1 = 0.01`, `L = 255`
from `calculateSSIM` in `agent3-qa.ts`. -/
def ssimC1 : ℚ := (1 / 100 * 255) ^ 2

/-- Stabilization constant `c2 = (k2 * L) ** 2` with `k2 = 0.03`, `L = 255`
from `calculateSSIM` in `agent3-qa.ts`. -/
def ssimC2 : ℚ := (3 / 100 * 255) ^ 2

/-- `SSIM_THRESHOLD = 0.92` from `agent3-qa.ts`. -/
def SSIM_THRESHOLD : ℚ := 92 / 100

/-- The population mean `sumX / n` computed by the accumulation loop of
`calculateSSIM`. -/
def mean (l : List ℚ) : ℚ := l.sum / l.length

/-- The accumulator `sumX2` (respectively `sumY2`) of `calculateSSIM`:
the sum of `x * x` over the sequence. -/
def sumSq (l : List ℚ) : ℚ := (l.map fun x => x * x).sum

/-- The accumulator `sumXY` of `calculateSSIM`: the sum of `x * y` over
corresponding positions. -/
def sumProd (xs ys : List ℚ) : ℚ := (List.zipWith (fun x y => x * y) xs ys).sum

/-- `varX = sumX2 / n - meanX * meanX` from `calculateSSIM`. -/
def varOf (l : List ℚ) : ℚ := sumSq l / l.length - mean l * mean l

/-- `covXY = sumXY / n - meanX * meanY` from `calculateSSIM` (the source
divides by `n = img1.length`). -/
def covOf (xs ys : List ℚ) : ℚ := sumProd xs ys / xs.length - mean xs * mean ys

/-- The final SSIM expression of `calculateSSIM`:
`((2*meanX*meanY + c1) * (2*covXY + c2)) /`
`((meanX*meanX + meanY*meanY + c1) * (varX + varY + c2))`. -/
def ssimScore (x y : List ℚ) : ℚ :=
  ((2 * mean x * mean y + ssimC1) * (2 * covOf x y + ssimC2)) /
  ((mean x * mean x + mean y * mean y + ssimC1) * (varOf x + varOf y + ssimC2))

/-- `calculateSSIM` from `agent3-qa.ts`.  The source loops `i` from `0` to
`img1.length - 1`; `img2.take img1.length` reflects that only the first
`img1.length` entries of `img2` are read (the two callers always pass
equal-length samples).  When `n = img1.length = 0` every mean is the JS
value `0 / 0 = NaN` and the returned score is NaN, modelled as `none`;
for `n > 0` the denominator is strictly positive (see `ssimScore_bounds`),
so the rational division is exact. -/
def calculateSSIM (img1 img2 : List ℚ) : Option ℚ :=
  if img1.length = 0 then none
  else some (ssimScore img1 (img2.take img1.length))

/-! Arithmetic facts about the scorer: nonnegativity of the computed
variance and the covariance bound `|2 cov| ≤ varX + varY`, both exact for
rational arithmetic. -/

lemma sumSq_nonneg (l : List ℚ) : 0 ≤ sumSq l := by
  induction l with
  | nil => simp [sumSq]
  | cons a t ih =>
    have h : sumSq (a :: t) = a * a + sumSq t := by simp [sumSq]
    rw [h]
    nlinarith [mul_self_nonneg a]

lemma sq_sum_le (l : List ℚ) : l.sum ^ 2 ≤ (l.length : ℚ) * sumSq l := by
  induction l with
  | nil => simp
  | cons a t ih =>
    have h : sumSq (a :: t) = a * a + sumSq t := by simp [sumSq]
    have hq : 0 ≤ sumSq t := sumSq_nonneg t
    have hn : (0 : ℚ) ≤ (t.length : ℚ) := Nat.cast_nonneg _
    rcases t with _ | ⟨b, t⟩
    · simp [sumSq]; nlinarith [mul_self_nonneg a]
    · have hn1 : (1 : ℚ) ≤ ((b :: t).length : ℚ) := by
        have : 1 ≤ (b :: t).length := by simp
        exact_mod_cast this
      have hlen : (((a :: b :: t).length : ℕ) : ℚ) = ((b :: t).length : ℚ) + 1 := by
        push_cast [List.length_cons]
        ring
      have hsum : (a :: b :: t).sum = a + (b :: t).sum := by simp
      rw [h, hlen, hsum]
      nlinarith [sq_nonneg (((b :: t).length : ℚ) * a - (b :: t).sum),
        sumSq_nonneg (b :: t), ih]

lemma varOf_nonneg (l : List ℚ) (h : l ≠ []) : 0 ≤ varOf l := by
  have hn : (0 : ℚ) < (l.length : ℚ) := by
    have := List.length_pos.mpr h
    exact_mod_cast this
  have key := sq_sum_le l
  have hrw : varOf l = ((l.length : ℚ) * sumSq l - l.sum ^ 2) / (l.length : ℚ) ^ 2 := by
    field_simp [varOf, mean]
    ring
  rw [hrw]
  apply div_nonneg
  · linarith
  · positivity

lemma sumProd_self (l : List ℚ) : sumProd l l = sumSq l := by
  induction l with
  | nil => simp [sumProd, sumSq]
  | cons a t ih =>
    simp only [sumProd, sumSq, List.zipWith_cons_cons, List.map_cons, List.sum_cons] at *
    rw [ih]

lemma sum_zipWith_sub : ∀ (xs ys : List ℚ), ys.length = xs.length →
    (List.zipWith (fun a b => a - b) xs ys).sum = xs.sum - ys.sum
  | [], [], _ => by simp
  | [], _ :: _, h => by simp at h
  | _ :: _, [], h => by simp at h
  | a :: xs, b :: ys, h => by
    simp only [List.zipWith_cons_cons, List.sum_cons]
    rw [sum_zipWith_sub xs ys (by simpa using h)]
    ring

lemma sum_zipWith_add : ∀ (xs ys : List ℚ), ys.length = xs.length →
    (List.zipWith (fun a b => a + b) xs ys).sum = xs.sum + ys.sum
  | [], [], _ => by simp
  | [], _ :: _, h => by simp at h
  | _ :: _, [], h => by simp at h
  | a :: xs, b :: ys, h => by
    simp only [List.zipWith_cons_cons, List.sum_cons]
    rw [sum_zipWith_add xs ys (by simpa using h)]
    ring

lemma sumSq_zipWith_sub : ∀ (xs ys : List ℚ), ys.length = xs.length →
    sumSq (List.zipWith (fun a b => a - b) xs ys) = sumSq xs + sumSq ys - 2 * sumProd xs ys
  | [], [], _ => by simp [sumSq, sumProd]
  | [], _ :: _, h => by simp at h
  | _ :: _, [], h => by simp at h
  | a :: xs, b :: ys, h => by
    simp only [sumSq, sumProd, List.zipWith_cons_cons, List.map_cons, List.sum_cons] at *
    rw [show ((List.zipWith (fun a b => a - b) xs ys).map fun x => x * x).sum
        = sumSq (List.zipWith (fun a b => a - b) xs ys) from rfl] at *
    rw [sumSq_zipWith_sub xs ys (by simpa using h)]
    simp only [sumSq, sumProd]
    ring

lemma sumSq_zipWith_add : ∀ (xs ys : List ℚ), ys.length = xs.length →
    sumSq (List.zipWith (fun a b => a + b) xs ys) = sumSq xs + sumSq ys + 2 * sumProd xs ys
  | [], [], _ => by simp [sumSq, sumProd]
  | [], _ :: _, h => by simp at h
  | _ :: _, [], h => by simp at h
  | a :: xs, b :: ys, h => by
    simp only [sumSq, sumProd, List.zipWith_cons_cons, List.map_cons, List.sum_cons] at *
    rw [show ((List.zipWith (fun a b => a + b) xs ys).map fun x => x * x).sum
        = sumSq (List.zipWith (fun a b => a + b) xs ys) from rfl] at *
    rw [sumSq_zipWith_add xs ys (by simpa using h)]
    simp only [sumSq, sumProd]
    ring

lemma length_zipWith_of_eq {f : ℚ → ℚ → ℚ} {xs ys : List ℚ} (h : ys.length = xs.length) :
    (List.zipWith f xs ys).length = xs.length := by
  rw [List.length_zipWith, h, min_self]

lemma varOf_eq_div {xs ys : List ℚ} {f : ℚ → ℚ → ℚ} (h : ys.length = xs.length) :
    varOf (List.zipWith f xs ys)
      = sumSq (List.zipWith f xs ys) / xs.length
        - ((List.zipWith f xs ys).sum / xs.length) * ((List.zipWith f xs ys).sum / xs.length) := by
  rw [varOf, mean, length_zipWith_of_eq h]

lemma two_covOf_le (xs ys : List ℚ) (h : ys.length = xs.length) (hne : xs ≠ []) :
    2 * covOf xs ys ≤ varOf xs + varOf ys := by
  have hn : (0 : ℚ) < (xs.length : ℚ) := by
    have := List.length_pos.mpr hne
    exact_mod_cast this
  have hzne : List.zipWith (fun a b => a - b) xs ys ≠ [] := by
    intro hcon
    have := length_zipWith_of_eq (f := fun a b => a - b) h
    rw [hcon] at this
    simp at this
    exact hne (List.eq_nil_of_length_eq_zero this.symm)
  have hv := varOf_nonneg _ hzne
  have hrw : varOf (List.zipWith (fun a b => a - b) xs ys)
      = varOf xs + varOf ys - 2 * covOf xs ys := by
    rw [varOf_eq_div h, sumSq_zipWith_sub xs ys h, sum_zipWith_sub xs ys h]
    rw [varOf, varOf, covOf, mean, mean, ← h]
    have hn2 : ((ys.length : ℚ)) ≠ 0 := by rw [h]; exact ne_of_gt hn
    field_simp
    ring
  linarith [hrw ▸ hv]

lemma neg_two_covOf_le (xs ys : List ℚ) (h : ys.length = xs.length) (hne : xs ≠ []) :
    -(varOf xs + varOf ys) ≤ 2 * covOf xs ys := by
  have hn : (0 : ℚ) < (xs.length : ℚ) := by
    have := List.length_pos.mpr hne
    exact_mod_cast this
  have hzne : List.zipWith (fun a b => a + b) xs ys ≠ [] := by
    intro hcon
    have := length_zipWith_of_eq (f := fun a b => a + b) h
    rw [hcon] at this
    simp at this
    exact hne (List.eq_nil_of_length_eq_zero this.symm)
  have hv := varOf_nonneg _ hzne
  have hrw : varOf (List.zipWith (fun a b => a + b) xs ys)
      = varOf xs + varOf ys + 2 * covOf xs ys := by
    rw [varOf_eq_div h, sumSq_zipWith_add xs ys h, sum_zipWith_add xs ys h]
    rw [varOf, varOf, covOf, mean, mean, ← h]
    have hn2 : ((ys.length : ℚ)) ≠ 0 := by rw [h]; exact ne_of_gt hn
    field_simp
    ring
  linarith [hrw ▸ hv]

lemma mean_nonneg (l : List ℚ) (h : ∀ v ∈ l, 0 ≤ v) : 0 ≤ mean l :=
  div_nonneg (List.sum_nonneg h) (Nat.cast_nonneg _)

lemma ssimC1_pos : (0 : ℚ) < ssimC1 := by norm_num [ssimC1]

lemma ssimC2_pos : (0 : ℚ) < ssimC2 := by norm_num [ssimC2]

/-- Pure arithmetic: bounds on a quotient of products under the factor
inequalities that the SSIM expression satisfies. -/
lemma div_prod_bounds (A1 A2 D1 D2 : ℚ) (hA1 : 0 < A1) (h12 : A1 ≤ D1)
    (h34 : A2 ≤ D2) (hlb : -D2 < A2) (hD1 : 0 < D1) (hD2 : 0 < D2) :
    -1 < A1 * A2 / (D1 * D2) ∧ A1 * A2 / (D1 * D2) ≤ 1 := by
  have hDpos : 0 < D1 * D2 := mul_pos hD1 hD2
  constructor
  · rw [lt_div_iff₀ hDpos]
    rcases le_or_lt 0 A2 with h0 | h0
    · nlinarith
    · nlinarith
  · rw [div_le_one hDpos]
    rcases le_or_lt 0 A2 with h0 | h0
    · nlinarith
    · nlinarith

lemma ssimScore_bounds (x y : List ℚ) (hne : x ≠ []) (hlen : y.length = x.length)
    (hx : ∀ v ∈ x, 0 ≤ v) (hy : ∀ v ∈ y, 0 ≤ v) :
    -1 < ssimScore x y ∧ ssimScore x y ≤ 1 := by
  have hyne : y ≠ [] := by
    intro hcon
    rw [hcon] at hlen
    simp at hlen
    exact hne (List.eq_nil_of_length_eq_zero hlen.symm)
  have ha := mean_nonneg x hx
  have hb := mean_nonneg y hy
  have hvx := varOf_nonneg x hne
  have hvy := varOf_nonneg y hyne
  have hc1 := ssimC1_pos
  have hc2 := ssimC2_pos
  have hcov1 := two_covOf_le x y hlen hne
  have hcov2 := neg_two_covOf_le x y hlen hne
  unfold ssimScore
  apply div_prod_bounds
  · nlinarith
  · nlinarith [sq_nonneg (mean x - mean y)]
  · linarith
  · linarith
  · nlinarith
  · linarith

/-- C7: on a pair of identical nonempty sequences every mean, variance and
covariance of the two sides coincide, the SSIM numerator equals the
denominator, and the score is exactly 1. -/
theorem ssim_identical_eq_one (x : List ℚ) (h : x ≠ []) :
    calculateSSIM x x = some 1 := by
  have hlen : x.length ≠ 0 := fun hc => h (List.eq_nil_of_length_eq_zero hc)
  have hcov : covOf x x = varOf x := by
    unfold covOf varOf
    rw [sumProd_self]
  unfold calculateSSIM
  rw [if_neg hlen, List.take_length]
  have hden : 0 < (mean x * mean x + mean x * mean x + ssimC1)
      * (varOf x + varOf x + ssimC2) := by
    have hv := varOf_nonneg x h
    nlinarith [mul_self_nonneg (mean x), ssimC1_pos, ssimC2_pos]
  unfold ssimScore
  rw [hcov]
  refine congrArg some ?_
  rw [div_eq_one_iff_eq (ne_of_gt hden)]
  ring

/-- Witness for C7 at the concrete one-pixel sample `[5]`. -/
theorem ssim_identical_eq_one_witness : calculateSSIM [5] [5] = some 1 :=
  ssim_identical_eq_one [5] (by decide)

/-- C8 counterexample: the subject samples `[0, 255]` and `[255, 0]`
(each a valid grayscale intensity sequence) drive `calculateSSIM` to the
negative value `-4991/5009`, so the scorer's range is not `0..1`. -/
theorem ssim_negative_example :
    calculateSSIM [0, 255] [255, 0] = some (-4991 / 5009)
      ∧ ¬ (0 : ℚ) ≤ -4991 / 5009 := by
  constructor
  · norm_num [calculateSSIM, ssimScore, mean, sumSq, sumProd, varOf, covOf, ssimC1, ssimC2]
  · norm_num

/-- C8 (amended): for every pair of equal-length nonempty sequences of
nonnegative intensities the scorer returns a value `s` with `-1 < s ≤ 1`
(not `0 ≤ s ≤ 1` as claimed); in particular the exact value `-1` is never
produced by the formula, so `-1` still occurs only on the failure path. -/
theorem ssim_bounds (x y : List ℚ) (hne : x ≠ []) (hlen : y.length = x.length)
    (hx : ∀ v ∈ x, 0 ≤ v) (hy : ∀ v ∈ y, 0 ≤ v) :
    ∃ s, calculateSSIM x y = some s ∧ -1 < s ∧ s ≤ 1 := by
  have hlen0 : x.length ≠ 0 := fun hc => hne (List.eq_nil_of_length_eq_zero hc)
  have htake : y.take x.length = y := by
    rw [← hlen]
    exact List.take_length y
  refine ⟨ssimScore x y, ?_, ?_, ?_⟩
  · unfold calculateSSIM
    rw [if_neg hlen0, htake]
  · exact (ssimScore_bounds x y hne hlen hx hy).1
  · exact (ssimScore_bounds x y hne hlen hx hy).2

/-- Witness for C8's amended bound at the concrete samples `[0]`, `[0]`. -/
theorem ssim_bounds_witness :
    ∃ s, calculateSSIM [0] [0] = some s ∧ -1 < s ∧ s ≤ 1 :=
  ssim_bounds [0] [0] (by decide) rfl (by decide) (by decide)

/-! The QA validator `validateEdit` of `agent3-qa.ts`. -/

/-- The `qa_status` values appearing in the sources (the skip stub of
`pipeline.ts` adds `skipped` to the pass/fail pair of `agent3-qa.ts`). -/
inductive QaStatus where
  | pass
  | fail
  | skipped
deriving DecidableEq, Repr

/-- The JS comparison `x >= t` where `x` may be NaN; a NaN on either side
compares false, which is how the source's verdict line behaves on an
empty subject sample. -/
def jsGe (x : Option ℚ) (t : ℚ) : Bool :=
  match x with
  | none => false
  | some v => decide (t ≤ v)

/-- `Math.round`: round half toward positive infinity, like
`round` on `ℚ` (`round v = ⌊v + 1/2⌋`); NaN maps to NaN through
`Option.map` at the call sites. -/
def jsRound (v : ℚ) : ℚ := ((round v : ℤ) : ℚ)

/-- The pattern `Math.round(x * scale) / scale` used for the reported
`ssim_score` (scale 1000) and `pixel_delta_percent` (scale 100). -/
def roundTo (scale : ℚ) (x : Option ℚ) : Option ℚ :=
  x.map fun v => jsRound (v * scale) / scale

/-- Printing of a rational as it enters an interpolated audit string;
abstracts JS float formatting (no claim depends on the digits). -/
def ratStr (q : ℚ) : String :=
  if q.den = 1 then toString q.num else toString q.num ++ "/" ++ toString q.den

/-- Printing of a possibly-NaN number: JS renders NaN as the string NaN. -/
def optNumStr (x : Option ℚ) : String :=
  match x with
  | none => "NaN"
  | some v => ratStr v

/-- The `agentTimings` argument of `validateEdit`. -/
structure AgentTimings where
  agent1_time_ms : ℕ
  agent2_time_ms : ℕ
  smart_prompt : String

/-- `ForensicLog.agent1_output` from `types/pipeline.ts`. -/
structure Agent1Output where
  mask_generation_time_ms : ℕ
  success : Bool

/-- `ForensicLog.agent2_output` from `types/pipeline.ts`. -/
structure Agent2Output where
  inpaint_time_ms : ℕ
  model : String
  smart_prompt : String
  success : Bool

/-- `ForensicLog.qa_output` from `types/pipeline.ts`; the two numeric
fields are `Option ℚ` because the source can store NaN in them. -/
structure QaOutput where
  pixel_delta_percent : Option ℚ
  ssim_score : Option ℚ
  qa_status : QaStatus
  subject_integrity : String
  recommendation : String

/-- `ForensicLog` from `types/pipeline.ts`. -/
structure ForensicLog where
  image_id : String
  timestamp_start : String
  timestamp_end : String
  processing_time_ms : ℕ
  original_hash : String
  edited_hash : String
  mask_hash : String
  agents_executed : List String
  agent1_output : Agent1Output
  agent2_output : Agent2Output
  qa_output : QaOutput
  vinted_safe : Bool
  audit_trail : List String

/-- `QAResult` from `types/pipeline.ts` (the undefined optional `error`
field is `none`). -/
structure QAResult where
  qa_status : QaStatus
  pixel_delta_percent : Option ℚ
  forensic_log : ForensicLog
  success : Bool
  error : Option String

/-- The subject-extraction loop of `validateEdit` (lines 106-111): keep
`grays[i]` exactly when `mask[i] < 128`. -/
def subjFilter (grays mask : List ℚ) : List ℚ :=
  (grays.zip mask).filterMap fun p => if p.2 < 128 then some p.1 else none

/-- The pixel-delta loop of `validateEdit` (lines 130-135): count the
positions whose absolute difference exceeds 10. -/
def countChanged (xs ys : List ℚ) : ℕ :=
  (List.zipWith (fun x y => if 10 < |x - y| then (1 : ℕ) else 0) xs ys).sum

/-- `validateEdit` from `agent3-qa.ts`.  The compressed image buffers are
replaced by what the validator derives from them: `hashes` is the triple
of SHA-256 hex digests produced by the crypto library, and `decoded` is
the outcome of the sharp metadata/resize/grayscale step — `Except.error`
is a thrown sharp exception (caught by the source's `catch` block) and
`Except.ok` carries the three equal-length grayscale pixel buffers.
`timestampStart`/`timestampEnd`/`qaTime` are the wall-clock readings.
Nothing after the decode step can throw in the source (the SSIM and delta
arithmetic only produces NaN), so the `catch` branch corresponds exactly
to `Except.error`. -/
def validateEdit (imageId : String) (agentTimings : AgentTimings)
    (hashes : String × String × String)
    (decoded : Except String (List ℚ × List ℚ × List ℚ))
    (timestampStart timestampEnd : String) (qaTime : ℕ) : QAResult :=
  match decoded with
  | Except.error msg =>
    { qa_status := QaStatus.fail
      pixel_delta_percent := some (-1)
      forensic_log :=
        { image_id := imageId
          timestamp_start := timestampStart
          timestamp_end := timestampEnd
          processing_time_ms := qaTime
          original_hash := ""
          edited_hash := ""
          mask_hash := ""
          agents_executed := ["removebg", "inpaint", "qa"]
          agent1_output :=
            { mask_generation_time_ms := agentTimings.agent1_time_ms, success := true }
          agent2_output :=
            { inpaint_time_ms := agentTimings.agent2_time_ms
              model := "imagen-3.0-capability-001"
              smart_prompt := agentTimings.smart_prompt
              success := true }
          qa_output :=
            { pixel_delta_percent := some (-1)
              ssim_score := some (-1)
              qa_status := QaStatus.fail
              subject_integrity := "modified"
              recommendation := "QA process failed - manual review required" }
          vinted_safe := false
          audit_trail := ["Hashes generated for all images", "ERROR: " ++ msg] }
      success := false
      error := some msg }
  | Except.ok (origGray, editGray, maskRaw) =>
    let subjectOriginal := subjFilter origGray maskRaw
    let subjectEdited := subjFilter editGray maskRaw
    let ssim := calculateSSIM subjectOriginal subjectEdited
    let ssimPercent := ssim.map fun v => jsRound (v * 10000) / 100
    let pixelDelta : Option ℚ :=
      if subjectOriginal.length = 0 then none
      else some (((countChanged subjectOriginal subjectEdited : ℚ)
        / subjectOriginal.length) * 100)
    let qaStatus := if jsGe ssim SSIM_THRESHOLD then QaStatus.pass else QaStatus.fail
    let subjectIntegrity := if jsGe ssim SSIM_THRESHOLD then "preserved" else "modified"
    { qa_status := qaStatus
      pixel_delta_percent := roundTo 100 pixelDelta
      forensic_log :=
        { image_id := imageId
          timestamp_start := timestampStart
          timestamp_end := timestampEnd
          processing_time_ms :=
            agentTimings.agent1_time_ms + agentTimings.agent2_time_ms + qaTime
          original_hash := "sha256:" ++ hashes.1
          edited_hash := "sha256:" ++ hashes.2.1
          mask_hash := "sha256:" ++ hashes.2.2
          agents_executed := ["removebg", "inpaint", "qa"]
          agent1_output :=
            { mask_generation_time_ms := agentTimings.agent1_time_ms, success := true }
          agent2_output :=
            { inpaint_time_ms := agentTimings.agent2_time_ms
              model := "imagen-3.0-capability-001"
              smart_prompt := agentTimings.smart_prompt
              success := true }
          qa_output :=
            { pixel_delta_percent := roundTo 100 pixelDelta
              ssim_score := roundTo 1000 ssim
              qa_status := qaStatus
              subject_integrity := subjectIntegrity
              recommendation :=
                if qaStatus = QaStatus.pass then "Ready for Vinted"
                else "Manual review required" }
          vinted_safe := decide (qaStatus = QaStatus.pass)
          audit_trail :=
            ["Hashes generated for all images",
             "Pixel data extracted for SSIM analysis",
             "Subject area: " ++ toString subjectOriginal.length ++ " pixels extracted",
             "SSIM (subject area): " ++ optNumStr ssimPercent ++ "%",
             "Pixel delta (reference): " ++ optNumStr pixelDelta ++ "%",
             if qaStatus = QaStatus.pass then
               "✅ QA PASS: SSIM " ++ optNumStr ssimPercent ++ "% >= 92%"
             else
               "❌ QA FAIL: SSIM " ++ optNumStr ssimPercent ++ "% < 92%"] }
      success := true
      error := none }

/-- The SSIM value a successful `validateEdit` run computes from its three
decoded buffers: the scorer applied to the two subject samples. -/
def ssimOf (origGray editGray maskRaw : List ℚ) : Option ℚ :=
  calculateSSIM (subjFilter origGray maskRaw) (subjFilter editGray maskRaw)

/-- A `validateEdit` run on a mask whose pixels are all `>= 128` (zero
subject pixels), for claim C1. -/
def emptyMaskRun : QAResult :=
  validateEdit "img-1" ⟨5, 7, "prompt"⟩ ("h1", "h2", "h3")
    (Except.ok ([10, 20], [10, 20], [255, 255])) "t0" "t1" 3

/-- C1 (code bug): when the mask matches zero subject pixels the source
computes SSIM over an empty sample, which yields NaN; `validateEdit`
then returns `success = true` with no error message and stores the NaN
(`none`) in `ssim_score` and `pixel_delta_percent` — the `fail` status
arises only because `NaN >= 0.92` is false, not from the guarded
descriptive failure the spec requires. -/
theorem qa_emptyMask_nan_unguarded :
    emptyMaskRun.qa_status = QaStatus.fail
      ∧ emptyMaskRun.success = true
      ∧ emptyMaskRun.error = none
      ∧ emptyMaskRun.forensic_log.qa_output.ssim_score = none
      ∧ emptyMaskRun.forensic_log.qa_output.pixel_delta_percent = none :=
  ⟨rfl, rfl, rfl, rfl, rfl⟩

/-- C4: on every successful decode the verdict is `pass` exactly when the
JS comparison `ssim >= SSIM_THRESHOLD` holds; when the score is an actual
number `s` that comparison is the inclusive `0.92 ≤ s`; and any two runs
with the same SSIM value get the same verdict, so the pixel-delta metric
never influences the decision. -/
theorem qa_verdict_threshold (imageId : String) (t : AgentTimings)
    (h : String × String × String) (o e m : List ℚ)
    (ts1 ts2 : String) (qt : ℕ) :
    ((validateEdit imageId t h (Except.ok (o, e, m)) ts1 ts2 qt).qa_status = QaStatus.pass
        ↔ jsGe (ssimOf o e m) SSIM_THRESHOLD = true)
    ∧ (∀ s, ssimOf o e m = some s →
        ((validateEdit imageId t h (Except.ok (o, e, m)) ts1 ts2 qt).qa_status = QaStatus.pass
          ↔ SSIM_THRESHOLD ≤ s))
    ∧ (∀ (imageId2 : String) (t2 : AgentTimings) (h2 : String × String × String)
        (o2 e2 m2 : List ℚ) (ts3 ts4 : String) (qt2 : ℕ),
        ssimOf o2 e2 m2 = ssimOf o e m →
        (validateEdit imageId2 t2 h2 (Except.ok (o2, e2, m2)) ts3 ts4 qt2).qa_status
          = (validateEdit imageId t h (Except.ok (o, e, m)) ts1 ts2 qt).qa_status) := by
  have key : ∀ (i' : String) (t' : AgentTimings) (h' : String × String × String)
      (o' e' m' : List ℚ) (a' b' : String) (q' : ℕ),
      (validateEdit i' t' h' (Except.ok (o', e', m')) a' b' q').qa_status
        = (if jsGe (ssimOf o' e' m') SSIM_THRESHOLD then QaStatus.pass else QaStatus.fail) :=
    fun _ _ _ _ _ _ _ _ _ => rfl
  refine ⟨?_, ?_, ?_⟩
  · rw [key]
    by_cases hb : jsGe (ssimOf o e m) SSIM_THRESHOLD <;> simp [hb]
  · intro s hs
    rw [key, hs]
    by_cases hT : SSIM_THRESHOLD ≤ s <;> simp [jsGe, hT]
  · intro i2 t2 h2 o2 e2 m2 ts3 ts4 qt2 hss
    rw [key, key, hss]

/-- Witness for C4 at the concrete decoded buffers `[0]`, `[0]`, `[0]`
(one subject pixel, SSIM exactly 1, threshold met). -/
theorem qa_verdict_threshold_witness :
    (validateEdit "id" ⟨1, 2, "p"⟩ ("a", "b", "c")
      (Except.ok ([0], [0], [0])) "s" "e" 0).qa_status = QaStatus.pass := by
  have hsubj : subjFilter [0] [0] = [0] := by
    simp [subjFilter, List.filterMap_cons, show (0 : ℚ) < 128 by norm_num]
  have hs : ssimOf [0] [0] [0] = some 1 := by
    unfold ssimOf
    rw [hsubj]
    exact ssim_identical_eq_one [0] (by simp)
  exact ((qa_verdict_threshold "id" ⟨1, 2, "p"⟩ ("a", "b", "c") [0] [0] [0] "s" "e" 0).2.1
    1 hs).mpr (by norm_num [SSIM_THRESHOLD])

/-! The pipeline controller of `pipeline.ts`. -/

/-- `COST_IMAGEN_MASK = 0.04` from `pipeline.ts`. -/
def COST_IMAGEN_MASK : ℚ := 4 / 100

/-- `COST_IMAGEN_INPAINT = 0.08` from `pipeline.ts`. -/
def COST_IMAGEN_INPAINT : ℚ := 8 / 100

/-- `PipelineConfig` from `pipeline.ts`. -/
structure PipelineConfig where
  googleApiKey : String
  gcpProjectId : String
  gcpLocation : String
  outputDir : String

/-- `ProcessOptions` from `pipeline.ts`; the optional `skipQA` flag is a
plain Bool (`undefined` is falsy at the only use site). -/
structure ProcessOptions where
  skipQA : Bool

/-- `PipelineInput` from `types/pipeline.ts`; the opaque image buffer is a
byte list (only forwarded to collaborators). -/
structure PipelineInput where
  image_buffer : List ℕ
  image_name : String

/-- `MaskResult` from `types/pipeline.ts` (agent 1's outcome); the
optional `error` is a plain string, empty when absent. -/
structure MaskResult where
  mask_buffer : List ℕ
  mask_base64 : String
  generation_time_ms : ℕ
  success : Bool
  error : String

/-- `InpaintResult` from `types/pipeline.ts`, plus the `inpainted_buffer`
field that `agent2-inpaint.ts` actually returns and `pipeline.ts` reads. -/
structure InpaintResult where
  edited_buffer : List ℕ
  edited_base64 : String
  inpainted_buffer : List ℕ
  processing_time_ms : ℕ
  model_version : String
  smart_prompt : String
  success : Bool
  error : String

/-- `PipelineResult` from `types/pipeline.ts`.  `forensic_log` is an
`Option` because the failure path of `processImage` stores an untyped
empty object (an `as any` cast) where the interface requires a full
`ForensicLog`; `none` models that empty object. -/
structure PipelineResult where
  success : Bool
  image_id : String
  original_path : String
  edited_path : String
  mask_path : String
  forensic_path : String
  forensic_log : Option ForensicLog
  total_time_ms : ℕ
  cost_estimate : ℚ
  error : Option String

/-- The environment of one `processImage` call: everything the controller
obtains from outside pure computation — the generated UUID, the two remote
collaborator results, the outcome of each of the three `writeFile` calls
(`Except.error` is a thrown filesystem exception), the QA outcome (the
source's `validateEdit` never rejects), a timestamp and the elapsed-time
reading.  The three `mkdir` calls are outside the `try` block and assumed
to succeed. -/
structure CallEnv where
  imageId : String
  maskResult : MaskResult
  maskWrite : Except String Unit
  inpaintResult : InpaintResult
  editedWrite : Except String Unit
  qaResult : QAResult
  forensicWrite : Except String Unit
  totalTime : ℕ
  nowIso : String

/-- The regex replacement `image_name.replace(/\.[^/.]+$/, '')` of
`pipeline.ts`: drop a final dot followed by one or more characters that
are neither a dot nor a slash. -/
def stripExt (s : String) : String :=
  let cs := s.data.reverse
  let ext := cs.takeWhile fun c => c ≠ '.' ∧ c ≠ '/'
  match cs.drop ext.length with
  | '.' :: rest => if ext.length = 0 then s else String.mk rest.reverse
  | _ => s

/-- The stub forensic log synthesized by `processImage` when
`options.skipQA` is set (lines 81-97 of `pipeline.ts`). -/
def stubForensicLog (imageId : String) (maskGenMs inpaintMs : ℕ)
    (smartPrompt : String) (nowIso : String) : ForensicLog :=
  { image_id := imageId
    timestamp_start := nowIso
    timestamp_end := nowIso
    processing_time_ms := 0
    original_hash := ""
    edited_hash := ""
    mask_hash := ""
    agents_executed := ["agent1", "agent2"]
    agent1_output := { mask_generation_time_ms := maskGenMs, success := true }
    agent2_output :=
      { inpaint_time_ms := inpaintMs
        model := "imagen-3.0"
        smart_prompt := smartPrompt
        success := true }
    qa_output :=
      { pixel_delta_percent := some 0
        ssim_score := some 1
        qa_status := QaStatus.skipped
        subject_integrity := "preserved"
        recommendation := "QA skipped" }
    vinted_safe := true
    audit_trail := ["QA skipped"] }

/-- `processImage` from `pipeline.ts`.  The `try` block is a sequence of
fallible steps; the first `throw` (a failed collaborator or a rejected
`writeFile`) transfers control to the `catch` block, which returns the
failure record with empty artifact paths, the empty forensic object
(`none`), zero cost and the thrown message.  `path.join` is modelled as
slash concatenation. -/
def processImage (input : PipelineInput) (config : PipelineConfig)
    (options : ProcessOptions) (env : CallEnv) : PipelineResult :=
  let masksDir := config.outputDir ++ "/masks"
  let editedDir := config.outputDir ++ "/edited"
  let logsDir := config.outputDir ++ "/logs"
  let baseName := stripExt input.image_name
  let failResult := fun (msg : String) =>
    ({ success := false
       image_id := env.imageId
       original_path := input.image_name
       edited_path := ""
       mask_path := ""
       forensic_path := ""
       forensic_log := none
       total_time_ms := env.totalTime
       cost_estimate := 0
       error := some msg } : PipelineResult)
  if env.maskResult.success then
    let maskPath := masksDir ++ "/" ++ baseName ++ "_mask.png"
    match env.maskWrite with
    | Except.error e => failResult e
    | Except.ok _ =>
      if env.inpaintResult.success then
        let editedPath := editedDir ++ "/" ++ baseName ++ "_edited.jpg"
        match env.editedWrite with
        | Except.error e => failResult e
        | Except.ok _ =>
          if options.skipQA then
            { success := true
              image_id := env.imageId
              original_path := input.image_name
              edited_path := editedPath
              mask_path := maskPath
              forensic_path := ""
              forensic_log := some (stubForensicLog env.imageId
                env.maskResult.generation_time_ms env.inpaintResult.processing_time_ms
                env.inpaintResult.smart_prompt env.nowIso)
              total_time_ms := env.totalTime
              cost_estimate := COST_IMAGEN_MASK + COST_IMAGEN_INPAINT
              error := none }
          else
            match env.forensicWrite with
            | Except.error e => failResult e
            | Except.ok _ =>
              { success := true
                image_id := env.imageId
                original_path := input.image_name
                edited_path := editedPath
                mask_path := maskPath
                forensic_path := logsDir ++ "/" ++ baseName ++ "_forensic.json"
                forensic_log := some env.qaResult.forensic_log
                total_time_ms := env.totalTime
                cost_estimate := COST_IMAGEN_MASK + COST_IMAGEN_INPAINT
                error := none }
      else failResult ("Inpainting failed: " ++ env.inpaintResult.error)
  else failResult ("Mask generation failed: " ++ env.maskResult.error)

/-- The chunking loop of `processBatch`, fuelled so that it is structural:
each iteration takes `c` inputs and recurses on the rest.  `l.length` fuel
always suffices when `c > 0` (each nonempty step consumes at least one
element); see `chunks`. -/
def chunksGo (c : ℕ) : ℕ → List PipelineInput → List (List PipelineInput)
  | 0, _ => []
  | _, [] => []
  | fuel + 1, l => l.take c :: chunksGo c fuel (l.drop c)

/-- The chunk decomposition performed by the `for` loop of `processBatch`
(`i += concurrency`, `slice(i, i + concurrency)`).  With `c = 0` the
source loop would never terminate; the claims only concern positive
concurrency. -/
def chunks (c : ℕ) (l : List PipelineInput) : List (List PipelineInput) :=
  if c = 0 then [] else chunksGo c l.length l

/-- `processBatch` from `pipeline.ts`: fold over the chunks, appending
each chunk's results in order (`Promise.all` preserves order).  The call
site passes no options, so every image runs with `skipQA = false`; the
per-image environment is `env`. -/
def processBatch (inputs : List PipelineInput) (config : PipelineConfig)
    (concurrency : ℕ) (env : PipelineInput → CallEnv) : List PipelineResult :=
  (chunks concurrency inputs).foldl
    (fun results batch =>
      results ++ batch.map fun input => processImage input config ⟨false⟩ (env input))
    []

/-! Properties of the chunking loop. -/

lemma chunksGo_fuel (c : ℕ) (hc : c ≠ 0) :
    ∀ (f1 f2 : ℕ) (l : List PipelineInput),
      l.length ≤ f1 → l.length ≤ f2 → chunksGo c f1 l = chunksGo c f2 l
  | f1, f2, [], _, _ => by cases f1 <;> cases f2 <;> rfl
  | f1 + 1, f2 + 1, a :: t, h1, h2 => by
    show (a :: t).take c :: chunksGo c f1 ((a :: t).drop c)
      = (a :: t).take c :: chunksGo c f2 ((a :: t).drop c)
    have hd : ((a :: t).drop c).length ≤ t.length := by
      rw [List.length_drop]
      simp only [List.length_cons]
      omega
    have h1' : t.length ≤ f1 := by simpa using h1
    have h2' : t.length ≤ f2 := by simpa using h2
    rw [chunksGo_fuel c hc f1 f2 ((a :: t).drop c) (le_trans hd h1') (le_trans hd h2')]
  | 0, _, a :: t, h1, _ => by simp at h1
  | _ + 1, 0, a :: t, _, h2 => by simp at h2

lemma chunks_nil (c : ℕ) : chunks c [] = [] := by
  unfold chunks
  split <;> rfl

lemma chunks_cons (c : ℕ) (hc : c ≠ 0) (l : List PipelineInput) (hl : l ≠ []) :
    chunks c l = l.take c :: chunks c (l.drop c) := by
  obtain ⟨a, t, rfl⟩ := List.exists_cons_of_ne_nil hl
  unfold chunks
  rw [if_neg hc, if_neg hc]
  show (a :: t).take c :: chunksGo c t.length ((a :: t).drop c)
    = (a :: t).take c :: chunksGo c ((a :: t).drop c).length ((a :: t).drop c)
  have hd : ((a :: t).drop c).length ≤ t.length := by
    rw [List.length_drop]
    simp only [List.length_cons]
    omega
  rw [chunksGo_fuel c hc t.length ((a :: t).drop c).length ((a :: t).drop c) hd le_rfl]

lemma chunksGo_flatten (c : ℕ) (hc : c ≠ 0) :
    ∀ (fuel : ℕ) (l : List PipelineInput), l.length ≤ fuel → (chunksGo c fuel l).flatten = l
  | fuel, [], _ => by cases fuel <;> rfl
  | fuel + 1, a :: t, h => by
    show (((a :: t).take c) :: chunksGo c fuel ((a :: t).drop c)).flatten = a :: t
    rw [List.flatten_cons]
    have hd : ((a :: t).drop c).length ≤ fuel := by
      rw [List.length_drop]
      simp only [List.length_cons]
      simp only [List.length_cons] at h
      omega
    rw [chunksGo_flatten c hc fuel ((a :: t).drop c) hd]
    exact List.take_append_drop c (a :: t)
  | 0, a :: t, h => by simp at h

lemma chunks_flatten (c : ℕ) (hc : c ≠ 0) (l : List PipelineInput) :
    (chunks c l).flatten = l := by
  unfold chunks
  rw [if_neg hc]
  exact chunksGo_flatten c hc l.length l le_rfl

/-- The sequence of chunk sizes the loop produces from `n` inputs. -/
def chunkSizesGo (c : ℕ) : ℕ → ℕ → List ℕ
  | 0, _ => []
  | _, 0 => []
  | fuel + 1, n + 1 => min c (n + 1) :: chunkSizesGo c fuel (n + 1 - c)

lemma chunksGo_map_length (c : ℕ) :
    ∀ (fuel : ℕ) (l : List PipelineInput),
      (chunksGo c fuel l).map List.length = chunkSizesGo c fuel l.length
  | fuel, [] => by cases fuel <;> rfl
  | 0, _ :: _ => rfl
  | fuel + 1, a :: t => by
    simp only [chunksGo, List.map_cons]
    rw [chunksGo_map_length c fuel ((a :: t).drop c)]
    rw [List.length_take, List.length_drop]
    simp only [List.length_cons]
    rfl

lemma chunksGo_mem_length (c : ℕ) :
    ∀ (fuel : ℕ) (l : List PipelineInput) (b : List PipelineInput),
      b ∈ chunksGo c fuel l → b.length ≤ c
  | fuel, [], b => by cases fuel <;> simp [chunksGo]
  | 0, _ :: _, b => by simp [chunksGo]
  | fuel + 1, a :: t, b => by
    intro hb
    have h : b = (a :: t).take c ∨ b ∈ chunksGo c fuel ((a :: t).drop c) := by
      simpa [chunksGo] using hb
    rcases h with rfl | h
    · rw [List.length_take]
      exact min_le_left _ _
    · exact chunksGo_mem_length c fuel ((a :: t).drop c) b h

lemma foldl_batch_append (config : PipelineConfig) (env : PipelineInput → CallEnv) :
    ∀ (bs : List (List PipelineInput)) (acc : List PipelineResult),
      bs.foldl
        (fun results batch =>
          results ++ batch.map fun input => processImage input config ⟨false⟩ (env input))
        acc
      = acc ++ (bs.map fun b =>
          b.map fun input => processImage input config ⟨false⟩ (env input)).flatten := by
  intro bs
  induction bs with
  | nil => intro acc; simp
  | cons b bs ih =>
    intro acc
    simp only [List.foldl_cons, List.map_cons, List.flatten_cons, ih, List.append_assoc]

lemma processBatch_eq_map (inputs : List PipelineInput) (config : PipelineConfig)
    (c : ℕ) (env : PipelineInput → CallEnv) (hc : c ≠ 0) :
    processBatch inputs config c env
      = inputs.map fun i => processImage i config ⟨false⟩ (env i) := by
  unfold processBatch
  rw [foldl_batch_append, List.nil_append]
  have h : (chunks c inputs).map
        (fun b => b.map fun input => processImage input config ⟨false⟩ (env input))
      = (chunks c inputs).map
        (List.map fun input => processImage input config ⟨false⟩ (env input)) := rfl
  rw [h, ← List.map_flatten, chunks_flatten c hc]

/-- C9: with positive concurrency the batch driver's results are exactly
the per-input `processImage` results in input order (so one image's
failure cannot alter another's result); every chunk the loop forms has at
most `concurrency` elements, the chunks concatenate back to the input
list, and a batch of 7 inputs at concurrency 3 is split into chunks of
sizes 3, 3, 1. -/
theorem processBatch_chunks_and_order (inputs : List PipelineInput)
    (config : PipelineConfig) (c : ℕ) (env : PipelineInput → CallEnv) (hc : c ≠ 0) :
    processBatch inputs config c env
        = inputs.map (fun i => processImage i config ⟨false⟩ (env i))
    ∧ (∀ b ∈ chunks c inputs, b.length ≤ c)
    ∧ (chunks c inputs).flatten = inputs
    ∧ (∀ l : List PipelineInput, l.length = 7 → (chunks 3 l).map List.length = [3, 3, 1])
    ∧ (∀ k : ℕ, (processBatch inputs config c env)[k]?
        = (inputs[k]?).map fun i => processImage i config ⟨false⟩ (env i)) := by
  refine ⟨processBatch_eq_map inputs config c env hc, ?_, chunks_flatten c hc inputs, ?_, ?_⟩
  · intro b hb
    unfold chunks at hb
    rw [if_neg hc] at hb
    exact chunksGo_mem_length c inputs.length inputs b hb
  · intro l hl
    unfold chunks
    rw [if_neg (by norm_num)]
    rw [chunksGo_map_length 3 l.length l, hl]
    rfl
  · intro k
    rw [processBatch_eq_map inputs config c env hc, List.getElem?_map]

/-- C10: `processBatch` calls `processImage(input, config)` with no
options, so every batched image runs with `skipQA = false`; consequently,
whenever the stages before QA succeed, the batched result embeds the QA
collaborator's forensic log and records the persisted forensic artifact
path — the QA stage is never skipped in a batch. -/
theorem processBatch_never_skips_qa (inputs : List PipelineInput)
    (config : PipelineConfig) (c : ℕ) (env : PipelineInput → CallEnv) (hc : c ≠ 0) :
    processBatch inputs config c env
        = inputs.map (fun i => processImage i config ⟨false⟩ (env i))
    ∧ (∀ (i : PipelineInput) (e : CallEnv),
        e.maskResult.success = true → e.maskWrite = Except.ok () →
        e.inpaintResult.success = true → e.editedWrite = Except.ok () →
        e.forensicWrite = Except.ok () →
        (processImage i config ⟨false⟩ e).forensic_log = some e.qaResult.forensic_log
        ∧ (processImage i config ⟨false⟩ e).forensic_path
            = config.outputDir ++ "/logs" ++ "/" ++ stripExt i.image_name ++ "_forensic.json") := by
  refine ⟨processBatch_eq_map inputs config c env hc, ?_⟩
  intro i e h1 h2 h3 h4 h5
  unfold processImage
  rw [h1, h2, h3, h4, h5]
  simp

/-! Controller-level claims.  Concrete fixtures used by the witnesses
and counterexamples below. -/

/-- A concrete pipeline input. -/
def sampleInput : PipelineInput := ⟨[1, 2, 3], "photo.jpg"⟩

/-- A concrete pipeline configuration. -/
def sampleConfig : PipelineConfig := ⟨"key", "proj", "loc", "out"⟩

/-- A successful mask-generation outcome. -/
def okMask : MaskResult := ⟨[7], "bm", 10, true, ""⟩

/-- A failed mask-generation outcome. -/
def badMask : MaskResult := ⟨[], "", 10, false, "quota exceeded"⟩

/-- A successful inpainting outcome. -/
def okInpaint : InpaintResult := ⟨[8], "be", [9], 20, "imagen-3.0", "cozy home", true, ""⟩

/-- A concrete QA collaborator outcome (an actual `validateEdit` run). -/
def sampleQA : QAResult :=
  validateEdit "q" ⟨1, 2, "p"⟩ ("a", "b", "c") (Except.ok ([0], [0], [0])) "s" "e" 0

/-- An environment in which every stage and every write succeeds. -/
def okEnv : CallEnv :=
  ⟨"id-1", okMask, Except.ok (), okInpaint, Except.ok (), sampleQA, Except.ok (), 99, "now"⟩

/-- `okEnv` with a failed mask stage. -/
def maskFailEnv : CallEnv := { okEnv with maskResult := badMask }

/-- `okEnv` with a failing mask-artifact write. -/
def maskWriteFailEnv : CallEnv := { okEnv with maskWrite := Except.error "disk full" }

/-- C2 counterexample: on the failure path `processImage` returns the
untyped empty object as its forensic log (modelled `none`), not a
structurally complete `ForensicLog`. -/
theorem processImage_failure_forensic_log_empty :
    (processImage sampleInput sampleConfig ⟨false⟩ maskFailEnv).success = false
    ∧ (processImage sampleInput sampleConfig ⟨false⟩ maskFailEnv).forensic_log = none :=
  ⟨rfl, rfl⟩

/-- C2 (amended): every `processImage` result is either a success record
(with no error and an embedded forensic log) or a failure record carrying
a human-readable error — but the failure record's forensic log is the
empty placeholder, not a populated `ForensicLog`; `validateEdit` itself
always returns a complete `QAResult` on both paths. -/
theorem result_shape_dichotomy :
    (∀ (input : PipelineInput) (config : PipelineConfig) (options : ProcessOptions)
        (env : CallEnv),
      ((processImage input config options env).success = true
        ∧ (processImage input config options env).error = none
        ∧ (processImage input config options env).forensic_log.isSome = true)
      ∨ ((processImage input config options env).success = false
        ∧ (∃ msg, (processImage input config options env).error = some msg)
        ∧ (processImage input config options env).forensic_log = none))
    ∧ (∀ (imageId : String) (t : AgentTimings) (h : String × String × String)
        (decoded : Except String (List ℚ × List ℚ × List ℚ)) (ts1 ts2 : String) (qt : ℕ),
      ((validateEdit imageId t h decoded ts1 ts2 qt).success = true
        ∧ (validateEdit imageId t h decoded ts1 ts2 qt).error = none)
      ∨ ((validateEdit imageId t h decoded ts1 ts2 qt).success = false
        ∧ ∃ msg, (validateEdit imageId t h decoded ts1 ts2 qt).error = some msg)) := by
  constructor
  · intro input config options env
    unfold processImage
    repeat' split
    all_goals first
      | exact Or.inl ⟨rfl, rfl, rfl⟩
      | exact Or.inr ⟨rfl, ⟨_, rfl⟩, rfl⟩
  · intro imageId t h decoded ts1 ts2 qt
    rcases decoded with msg | ⟨o, e, m⟩
    · exact Or.inr ⟨rfl, msg, rfl⟩
    · exact Or.inl ⟨rfl, rfl⟩

/-- C3 counterexample: the mask stage succeeded computationally but the
mask-artifact write throws; the returned result has `success = false`
(the in-memory result is discarded), contradicting the claimed
best-effort persistence. -/
theorem maskWrite_failure_aborts :
    maskWriteFailEnv.maskResult.success = true
    ∧ (processImage sampleInput sampleConfig ⟨false⟩ maskWriteFailEnv).success = false
    ∧ (processImage sampleInput sampleConfig ⟨false⟩ maskWriteFailEnv).error
        = some "disk full" :=
  ⟨rfl, rfl, rfl⟩

/-- C3 (amended): each of the three artifact writes sits inside the
`try` block, so a write failure after a computationally successful stage
is fatal: the catch converts it into a failed `PipelineResult` carrying
the write's error message. -/
theorem artifactWrite_failure_fatal (input : PipelineInput) (config : PipelineConfig)
    (options : ProcessOptions) (env : CallEnv) (e : String) :
    (env.maskResult.success = true → env.maskWrite = Except.error e →
      (processImage input config options env).success = false
      ∧ (processImage input config options env).error = some e)
    ∧ (env.maskResult.success = true → env.maskWrite = Except.ok () →
      env.inpaintResult.success = true → env.editedWrite = Except.error e →
      (processImage input config options env).success = false
      ∧ (processImage input config options env).error = some e)
    ∧ (env.maskResult.success = true → env.maskWrite = Except.ok () →
      env.inpaintResult.success = true → env.editedWrite = Except.ok () →
      options.skipQA = false → env.forensicWrite = Except.error e →
      (processImage input config options env).success = false
      ∧ (processImage input config options env).error = some e) := by
  refine ⟨?_, ?_, ?_⟩
  · intro h1 h2
    unfold processImage
    rw [h1, h2]
    exact ⟨rfl, rfl⟩
  · intro h1 h2 h3 h4
    unfold processImage
    rw [h1, h2, h3, h4]
    exact ⟨rfl, rfl⟩
  · intro h1 h2 h3 h4 h5 h6
    unfold processImage
    rw [h1, h2, h3, h4, h5, h6]
    exact ⟨rfl, rfl⟩

/-- Witness for C3's amended statement at a concrete environment whose
mask write throws. -/
theorem artifactWrite_failure_fatal_witness :
    (processImage sampleInput sampleConfig ⟨false⟩ maskWriteFailEnv).success = false
    ∧ (processImage sampleInput sampleConfig ⟨false⟩ maskWriteFailEnv).error
        = some "disk full" :=
  (artifactWrite_failure_fatal sampleInput sampleConfig ⟨false⟩ maskWriteFailEnv
    "disk full").1 rfl rfl

/-- C5 counterexample: a `processImage` call with `skipQA` set whose mask
stage fails returns no forensic log at all (the empty placeholder), so
not every `skipQA` call embeds the `skipped` stub. -/
theorem skipQA_maskFailure_no_stub :
    (processImage sampleInput sampleConfig ⟨true⟩ maskFailEnv).forensic_log = none
    ∧ (processImage sampleInput sampleConfig ⟨true⟩ maskFailEnv).success = false :=
  ⟨rfl, rfl⟩

/-- C5 (amended): in every `skipQA` call the QA collaborator's outcome and
the forensic write are never consulted and `forensic_path` stays empty;
when the mask and inpaint stages and their writes succeed, the result is
the success record embedding the stub log with `qa_status = skipped`,
`ssim_score = 1` and `vinted_safe = true`. -/
theorem skipQA_stub_behavior (input : PipelineInput) (config : PipelineConfig)
    (env : CallEnv) :
    (env.maskResult.success = true → env.maskWrite = Except.ok () →
      env.inpaintResult.success = true → env.editedWrite = Except.ok () →
      (processImage input config ⟨true⟩ env).success = true
      ∧ (processImage input config ⟨true⟩ env).forensic_log
          = some (stubForensicLog env.imageId env.maskResult.generation_time_ms
              env.inpaintResult.processing_time_ms env.inpaintResult.smart_prompt env.nowIso)
      ∧ (stubForensicLog env.imageId env.maskResult.generation_time_ms
          env.inpaintResult.processing_time_ms env.inpaintResult.smart_prompt
          env.nowIso).qa_output.qa_status = QaStatus.skipped
      ∧ (stubForensicLog env.imageId env.maskResult.generation_time_ms
          env.inpaintResult.processing_time_ms env.inpaintResult.smart_prompt
          env.nowIso).qa_output.ssim_score = some 1
      ∧ (stubForensicLog env.imageId env.maskResult.generation_time_ms
          env.inpaintResult.processing_time_ms env.inpaintResult.smart_prompt
          env.nowIso).vinted_safe = true)
    ∧ (processImage input config ⟨true⟩ env).forensic_path = ""
    ∧ (∀ (qa : QAResult) (fw : Except String Unit),
        processImage input config ⟨true⟩ { env with qaResult := qa, forensicWrite := fw }
          = processImage input config ⟨true⟩ env) := by
  refine ⟨?_, ?_, ?_⟩
  · intro h1 h2 h3 h4
    unfold processImage
    rw [h1, h2, h3, h4]
    exact ⟨rfl, rfl, rfl, rfl, rfl⟩
  · unfold processImage
    repeat' split
    all_goals first
      | rfl
      | simp_all
  · intro qa fw
    unfold processImage
    rfl

/-- Witness for C5's amended statement at a concrete all-successful
environment. -/
theorem skipQA_stub_behavior_witness :
    (processImage sampleInput sampleConfig ⟨true⟩ okEnv).success = true
    ∧ (processImage sampleInput sampleConfig ⟨true⟩ okEnv).forensic_log
        = some (stubForensicLog okEnv.imageId okEnv.maskResult.generation_time_ms
            okEnv.inpaintResult.processing_time_ms okEnv.inpaintResult.smart_prompt
            okEnv.nowIso) := by
  have h := (skipQA_stub_behavior sampleInput sampleConfig okEnv).1 rfl rfl rfl rfl
  exact ⟨h.1, h.2.1⟩

/-- C6: when the mask collaborator reports failure, the controller throws
before any later stage, the catch returns a failed result whose error
names the mask stage, the artifact paths are all empty, and the result
does not depend on the inpaint outcome, the QA outcome, or any of the
writes. -/
theorem maskFailure_aborts_pipeline (input : PipelineInput) (config : PipelineConfig)
    (options : ProcessOptions) (env : CallEnv)
    (h : env.maskResult.success = false) :
    (processImage input config options env).success = false
    ∧ (processImage input config options env).error
        = some ("Mask generation failed: " ++ env.maskResult.error)
    ∧ (processImage input config options env).edited_path = ""
    ∧ (processImage input config options env).mask_path = ""
    ∧ (processImage input config options env).forensic_path = ""
    ∧ (processImage input config options env).forensic_log = none
    ∧ (∀ (mw : Except String Unit) (ir : InpaintResult) (ew : Except String Unit)
        (qa : QAResult) (fw : Except String Unit),
        processImage input config options
          { env with
            maskWrite := mw
            inpaintResult := ir
            editedWrite := ew
            qaResult := qa
            forensicWrite := fw }
          = processImage input config options env) := by
  refine ⟨?_, ?_, ?_, ?_, ?_, ?_, ?_⟩ <;>
    first
      | (unfold processImage; rw [h]; rfl)
      | (intro mw ir ew qa fw; unfold processImage; rw [h]; rfl)

/-- Witness for C6 at a concrete failed mask stage. -/
theorem maskFailure_aborts_pipeline_witness :
    (processImage sampleInput sampleConfig ⟨false⟩ maskFailEnv).success = false
    ∧ (processImage sampleInput sampleConfig ⟨false⟩ maskFailEnv).error
        = some ("Mask generation failed: " ++ maskFailEnv.maskResult.error) := by
  have h := maskFailure_aborts_pipeline sampleInput sampleConfig ⟨false⟩ maskFailEnv rfl
  exact ⟨h.1, h.2.1⟩

/-- The seven concrete inputs used by the batch witness. -/
def inputs7 : List PipelineInput :=
  [⟨[], "a"⟩, ⟨[], "b"⟩, ⟨[], "c"⟩, ⟨[], "d"⟩, ⟨[], "e"⟩, ⟨[], "f"⟩, ⟨[], "g"⟩]

/-- Witness for C9: seven concrete inputs at concurrency 3 produce chunks
of sizes 3, 3, 1. -/
theorem processBatch_chunks_and_order_witness :
    (chunks 3 inputs7).map List.length = [3, 3, 1] :=
  (processBatch_chunks_and_order inputs7 sampleConfig 3 (fun _ => okEnv)
    (by norm_num)).2.2.2.1 inputs7 rfl

/-- Witness for C10: in a concrete all-successful batched run the QA
collaborator's forensic log is embedded in the result. -/
theorem processBatch_never_skips_qa_witness :
    (processImage sampleInput sampleConfig ⟨false⟩ okEnv).forensic_log
      = some okEnv.qaResult.forensic_log :=
  ((processBatch_never_skips_qa [sampleInput] sampleConfig 3 (fun _ => okEnv)
    (by norm_num)).2 sampleInput okEnv rfl rfl rfl rfl rfl).1

end Vinted

